import Mathlib

/-!
A verification development for the signaling/session part of the WeAll node
web SDK (`weall_node/websdk.js`).  The `WeAllWebRTC` class and the HTTP POST
helper of `WeAllAPI` are shallowly embedded: the mutable fields of a
`WeAllWebRTC` instance become the `RTCState` structure, each method becomes a
pure state-transition function returning the new state together with the list
of externally visible effects (`Event`) it performed, and the outcome of each
external call (server responses, media acquisition, ICE-candidate adds) is an
explicit input of the corresponding function.

Conventions used throughout:
* JavaScript `null`/`undefined`/empty-string ("falsy") string fields are
  modelled as `Option String` with `none` standing for any falsy value.
* The `pcMap` (`Map` of peer id to `RTCPeerConnection`) is an association
  list with distinct keys; insertion appends at the end.
* Network sends (`api.signal`, `api.leave`, ...) are recorded as events; an
  event records the *attempt* — whether the underlying request succeeds is
  controlled by explicit oracle fields where a claim depends on failures.
-/

namespace WeAll

/-- One `RTCPeerConnection`, reduced to the bookkeeping the SDK performs on
it: whether local tracks were attached, the local/remote session
descriptions, and the ICE candidates successfully added. -/
structure PC where
  hasLocalTracks : Bool := false
  localDesc : Option String := none
  remoteDesc : Option String := none
  candidates : List String := []
  deriving DecidableEq, Repr

/-- One roster entry of a server response (`{client_id, publisher, role}`).
`role = none` models an absent or empty (falsy) role field. -/
structure Participant where
  client_id : String
  publisher : Bool := false
  role : Option String := none
  deriving DecidableEq, Repr

/-- A signaling message as consumed by `_handleSignal` (`m.from`, `m.type`,
`m.data.sdp` / `m.data.candidate` / `m.data.client_id` / `m.data.event`).
`sender` is the `from` field.  The trailing oracle fields say whether the
external calls performed while handling this message succeed: `relayOk` for
an `api.signal` send, `addOk` for `pc.addIceCandidate`, `stateOk` for the
`api.roomState` fetch in the `bye` branch. -/
structure SignalMessage where
  mid : Nat := 0
  sender : String := ""
  type : String := ""
  sdp : String := ""
  candidate : String := ""
  dataClientId : Option String := none
  event : String := ""
  relayOk : Bool := true
  addOk : Bool := true
  stateOk : Bool := true
  deriving DecidableEq, Repr

/-- A `/webrtc/poll` response body: `last_mid` (0 models a falsy/absent
cursor) and the message list. -/
structure PollResponse where
  last_mid : Nat := 0
  messages : List SignalMessage := []
  deriving DecidableEq, Repr

/-- Externally visible effects of the SDK: server calls, callbacks into the
embedding page, connection closes, media start/stop, and the fixed backoff
sleep of the poll loop. -/
inductive Event where
  | apiJoin (roomId clientId : String) (publisherIntent : Option Bool)
  | apiLeave (roomId clientId : String)
  | apiPublish (roomId clientId : String) (enable : Bool) (role : String)
  | signalSent (src dst ty : String)
  | pcClosed (peerId : String)
  | onDisconnected
  | onRoster
  | onMessage (mid : Nat)
  | mediaStarted
  | mediaStopped
  | backoff (ms : Nat)
  deriving DecidableEq, Repr

/-- The mutable fields of a `WeAllWebRTC` instance (constructor defaults). -/
structure RTCState where
  roomId : Option String := none
  clientId : Option String := none
  accountId : Option String := none
  role : String := "observer"
  localStream : Bool := false
  tracksEnabled : Bool := true
  pcMap : List (String × PC) := []
  lastMid : Nat := 0
  pollAbort : Bool := false
  isPublisher : Bool := false
  iceLoaded : Bool := false
  deriving DecidableEq, Repr

/-- Key lookup in an association list (`Map.prototype.get`). -/
def alookup (m : List (String × PC)) (k : String) : Option PC :=
  (m.find? (fun e => e.1 == k)).map (·.2)

/-- `this.pcMap.get(peerId)`. -/
def lookupPC (st : RTCState) (peerId : String) : Option PC :=
  alookup st.pcMap peerId

/-- Pointwise mutation of the value held under key `k` (keys unchanged). -/
def aupdate (m : List (String × PC)) (k : String) (f : PC → PC) : List (String × PC) :=
  m.map (fun e => if e.1 == k then (e.1, f e.2) else e)

/-- In-place mutation of the connection object held for `peerId` (the map
itself is unchanged). -/
def updatePC (st : RTCState) (peerId : String) (f : PC → PC) : RTCState :=
  { st with pcMap := aupdate st.pcMap peerId f }

/-- `String(this.clientId)` as used for the `from` field of outgoing
signals. -/
def selfStr (st : RTCState) : String :=
  st.clientId.getD "null"

/-- `_pcFor(peerId)`: return the held connection, or create a fresh one
(attaching local tracks when publishing with media held) and register it.
`loadIce` never throws (it falls back to a public STUN server), so creation
is modelled as total; `iceLoaded` records the fetched-once ICE cache. -/
def pcFor (st : RTCState) (peerId : String) : RTCState :=
  match lookupPC st peerId with
  | some _ => st
  | none =>
    let fresh : PC := { hasLocalTracks := st.isPublisher && st.localStream }
    { st with iceLoaded := true, pcMap := st.pcMap ++ [(peerId, fresh)] }

/-- `startMedia()`: acquire local media if absent; attach tracks to every
open connection when publishing, otherwise disable (mute) the tracks. -/
def startMedia (st : RTCState) : RTCState × List Event :=
  if st.localStream then (st, [])
  else
    let st1 := { st with localStream := true, tracksEnabled := true }
    if st1.isPublisher then
      ({ st1 with pcMap := st1.pcMap.map (fun e => (e.1, { e.2 with hasLocalTracks := true })) },
        [Event.mediaStarted])
    else
      ({ st1 with tracksEnabled := false }, [Event.mediaStarted])

/-- `stopMedia()`: stop and drop the local stream (no-op when absent). -/
def stopMedia (st : RTCState) : RTCState × List Event :=
  if st.localStream then ({ st with localStream := false }, [Event.mediaStopped])
  else (st, [])

/-- `_makeOffer(peerId)`: ensure a connection, set a local offer description
and send the offer signal to `peerId`. -/
def makeOffer (st : RTCState) (peerId : String) : RTCState × List Event :=
  let st1 := pcFor st peerId
  let st2 := updatePC st1 peerId (fun pc => { pc with localDesc := some "offer" })
  (st2, [Event.signalSent (selfStr st2) peerId "offer"])

/-- `_handleOffer(from, sdp)`: ensure a connection for the sender, apply the
remote description, set a local answer and send the answer signal back. -/
def handleOffer (st : RTCState) (sender sdp : String) : RTCState × List Event :=
  let st1 := pcFor st sender
  let st2 := updatePC st1 sender
    (fun pc => { pc with remoteDesc := some sdp, localDesc := some ("answer:" ++ sdp) })
  (st2, [Event.signalSent (selfStr st2) sender "answer"])

/-- `_handleAnswer(from, sdp)`: apply the remote description to the held
connection; no-op when no connection is held. -/
def handleAnswer (st : RTCState) (sender sdp : String) : RTCState :=
  match lookupPC st sender with
  | none => st
  | some _ => updatePC st sender (fun pc => { pc with remoteDesc := some sdp })

/-- `_handleCandidate(from, candidate)`: ensure a connection and add the
candidate; the add is wrapped in `try ... catch {}` so a failing add
(`addOk = false`) is swallowed and changes nothing. -/
def handleCandidate (st : RTCState) (sender cand : String) (addOk : Bool) : RTCState :=
  let st1 := pcFor st sender
  if addOk then updatePC st1 sender (fun pc => { pc with candidates := pc.candidates ++ [cand] })
  else st1

/-- `_handleSignal(m)`: dispatch on the message type.  The returned `Bool`
is `true` when handling raised an error (which the poll loop's `catch`
turns into a backoff): the answer-send of an offer or the offer-send after a
presence can fail (`relayOk = false`), and the unguarded `api.roomState`
await of the `bye` branch can fail (`stateOk = false`); candidate-add
failures are swallowed inside `_handleCandidate` and never raise.
Unrecognised types are surfaced via the `onMessage` callback. -/
def handleSignal (st : RTCState) (m : SignalMessage) : RTCState × List Event × Bool :=
  if m.type == "offer" then
    ((handleOffer st m.sender m.sdp).1, (handleOffer st m.sender m.sdp).2, !m.relayOk)
  else if m.type == "answer" then
    (handleAnswer st m.sender m.sdp, [], false)
  else if m.type == "candidate" then
    (handleCandidate st m.sender m.candidate m.addOk, [], false)
  else if m.type == "bye" then
    let peer := m.dataClientId.getD m.sender
    let closeEvs := if (lookupPC st peer).isSome then [Event.pcClosed peer] else []
    let st1 := { st with pcMap := st.pcMap.filter (fun e => !(e.1 == peer)) }
    if m.stateOk then (st1, closeEvs ++ [Event.onRoster], false)
    else (st1, closeEvs, true)
  else if m.type == "presence" then
    match m.dataClientId with
    | some c =>
      if st.isPublisher && (st.clientId != some c) && (m.event != "unpublish") then
        ((makeOffer st c).1, [Event.onRoster] ++ (makeOffer st c).2, !m.relayOk)
      else (st, [Event.onRoster], false)
    | none => (st, [Event.onRoster], false)
  else
    (st, [Event.onMessage m.mid], false)

/-- The message loop of one poll cycle: for each message, first raise
`lastMid` to at least its id (`Math.max`), then skip the client's own
messages, then handle it.  The `Bool` result is `true` when a handler
raised; the remaining messages of that response are then not processed. -/
def processMessages (st : RTCState) : List SignalMessage → RTCState × List Event × Bool
  | [] => (st, [], false)
  | m :: ms =>
    let st1 := { st with lastMid := max st.lastMid m.mid }
    if st1.clientId == some m.sender then processMessages st1 ms
    else
      match handleSignal st1 m with
      | (st2, evs, true) => (st2, evs, true)
      | (st2, evs, false) =>
        let (st3, evs2, raised) := processMessages st2 ms
        (st3, evs ++ evs2, raised)

/-- The outcome of one `api.poll` request: a transport/server error, or a
response body. -/
inductive PollOutcome where
  | err
  | ok (r : PollResponse)
  deriving DecidableEq, Repr

/-- One iteration body of `_pollLoop`: on a successful poll, set `lastMid`
to the server cursor when truthy (`r.last_mid || this.lastMid`), then
process the messages; any error (failed poll request or a raising handler)
is caught, logged and followed by the fixed 800 ms backoff.  The `Bool`
result records whether the cycle errored. -/
def pollCycle (st : RTCState) (c : PollOutcome) : RTCState × List Event × Bool :=
  match c with
  | .err => (st, [Event.backoff 800], true)
  | .ok r =>
    let st1 := { st with lastMid := if r.last_mid == 0 then st.lastMid else r.last_mid }
    match processMessages st1 r.messages with
    | (st2, evs, true) => (st2, evs ++ [Event.backoff 800], true)
    | (st2, evs, false) => (st2, evs, false)

/-- Why the modelled poll loop stopped: it observed the abort flag at the
once-per-iteration check, or the modelled input sequence ran out (the real
loop would keep polling). -/
inductive ExitReason where
  | aborted
  | inputsExhausted
  deriving DecidableEq, Repr

/-- `_pollLoop()` over an explicit finite schedule of iterations.  Each
entry `(ext, c)` gives the cycle's poll outcome `c` and whether an external
cooperative task (`leaveRoom`) set `_pollAbort` during this iteration's
network suspension (`ext`).  The loop checks the abort flag exactly once
per iteration, before polling. -/
def pollLoop (st : RTCState) : List (Bool × PollOutcome) → RTCState × List Event × ExitReason
  | [] => (st, [], if st.pollAbort then .aborted else .inputsExhausted)
  | (ext, c) :: rest =>
    if st.pollAbort then (st, [], .aborted)
    else
      let st2 := if ext then { (pollCycle st c).1 with pollAbort := true } else (pollCycle st c).1
      ((pollLoop st2 rest).1, (pollCycle st c).2.1 ++ (pollLoop st2 rest).2.1,
        (pollLoop st2 rest).2.2)

/-- `leaveRoom()`: gated on a truthy room and client id; sets the abort
flag, signals departure (failure ignored — the call is only recorded),
closes and discards every held connection, stops local media and invokes
the disconnect callback.  It does not clear `roomId`, `clientId` or
`lastMid`. -/
def leaveRoom (st : RTCState) : RTCState × List Event :=
  match st.roomId, st.clientId with
  | some rid, some cid =>
    let st1 := { st with pollAbort := true }
    let st2 := { st1 with pcMap := [] }
    ((stopMedia st2).1,
      [Event.apiLeave rid cid] ++ st1.pcMap.map (fun e => Event.pcClosed e.1)
        ++ (stopMedia st2).2 ++ [Event.onDisconnected])
  | _, _ => (st, [])

/-- Arguments of `joinRoom({roomId, clientId, accountId, role, publisher})`;
`none` models an absent/falsy argument. -/
structure JoinArgs where
  roomId : Option String := none
  clientId : Option String := none
  accountId : Option String := none
  role : Option String := none
  publisher : Option Bool := none
  deriving DecidableEq, Repr

/-- The `api.roomJoin` response body (`res.participants`). -/
structure JoinResponse where
  participants : List Participant := []
  deriving DecidableEq, Repr

/-- `!!(selfMeta && selfMeta.publisher)` where `selfMeta` is the first
roster entry whose `client_id` equals the local client id. -/
def grantedPublisher (ps : List Participant) (cid : String) : Bool :=
  match ps.find? (fun p => p.client_id == cid) with
  | some p => p.publisher
  | none => false

/-- `(selfMeta && selfMeta.role) || this.role`: the entry's role when
present and truthy, else the locally requested role. -/
def grantedRole (ps : List Participant) (cid : String) (requested : String) : String :=
  match ps.find? (fun p => p.client_id == cid) with
  | some p => p.role.getD requested
  | none => requested

/-- The initial-offer loop of `joinRoom`: for every roster entry other than
self, offer when publishing (`p.client_id !== this.clientId &&
this.isPublisher`, checked against the current state each iteration). -/
def offerLoopJoin (cid : String) : RTCState × List Event → List Participant → RTCState × List Event
  | acc, [] => acc
  | (s, e), p :: ps =>
    if (p.client_id != cid) && s.isPublisher then
      let (s1, e1) := makeOffer s p.client_id
      offerLoopJoin cid (s1, e ++ e1) ps
    else offerLoopJoin cid (s, e) ps

/-- The success path of `joinRoom`, given the granted room id `rid`: set
the requested ids/role, derive the granted publisher flag and role from the
roster entry matching the local client id, start media when publishing,
refresh the roster, offer to every existing participant when publishing,
and clear the abort flag for the poll loop. -/
def joinOk (st : RTCState) (args : JoinArgs) (genId rid : String) (res : JoinResponse) :
    RTCState × List Event :=
  let cid := args.clientId.getD genId
  let st0 := { st with roomId := some rid, clientId := some cid,
                       accountId := args.accountId, role := args.role.getD "observer" }
  let isPub := grantedPublisher res.participants cid
  let st1 := { st0 with isPublisher := isPub,
                        role := grantedRole res.participants cid st0.role }
  let afterMedia := if isPub then startMedia st1 else (st1, [])
  let afterOffers := offerLoopJoin cid (afterMedia.1, []) res.participants
  ({ afterOffers.1 with pollAbort := false },
    [Event.apiJoin rid cid args.publisher] ++ afterMedia.2 ++ [Event.onRoster]
      ++ afterOffers.2)

/-- `joinRoom(args)` given the generated fallback client id (`genId`, the
value `_randClientId()` would return) and the server's join response.
Fails only on a missing room id; the join request itself is assumed
answered by `res`, and the signal sends are recorded as events. -/
def joinRoom (st : RTCState) (args : JoinArgs) (genId : String) (res : JoinResponse) :
    Except String (RTCState × List Event) :=
  match args.roomId <|> st.roomId with
  | none => .error "roomId required"
  | some rid => .ok (joinOk st args genId rid res)

/-- The event trace of a successful `joinRoom` (empty on failure). -/
def joinEvents (st : RTCState) (args : JoinArgs) (genId : String) (res : JoinResponse) :
    List Event :=
  match joinRoom st args genId res with
  | .ok x => x.2
  | .error _ => []

/-- The `api.roomPublish` response body (`out.participants`). -/
structure PublishResponse where
  participants : List Participant := []
  deriving DecidableEq, Repr

/-- The offer loop of `publish(true)`: offer to every roster entry other
than self. -/
def offerLoopPublish (cid : String) : RTCState × List Event → List Participant → RTCState × List Event
  | acc, [] => acc
  | (s, e), p :: ps =>
    if p.client_id == cid then offerLoopPublish cid (s, e) ps
    else
      let (s1, e1) := makeOffer s p.client_id
      offerLoopPublish cid (s1, e ++ e1) ps

/-- The success path of `publish(enable, roleOverride)` for a joined
session (`rid`/`cid` the held room and client ids): record the publish
call, set `isPublisher` to exactly `enable`, acquire media when enabling
with none held, and when enabling offer to every other returned
participant. -/
def publishOk (st : RTCState) (enable : Bool) (roleOverride : Option String)
    (rid cid : String) (out : PublishResponse) : RTCState × List Event :=
  let st1 := { st with isPublisher := enable }
  let afterMedia := if enable && !st1.localStream then startMedia st1 else (st1, [])
  let afterOffers :=
    if enable then offerLoopPublish cid (afterMedia.1, []) out.participants
    else (afterMedia.1, [])
  (afterOffers.1,
    [Event.apiPublish rid cid enable (roleOverride.getD st.role)] ++ afterMedia.2
      ++ afterOffers.2)

/-- `publish(enable, roleOverride)` given the server's publish response
`out`.  Throws when no room is joined. -/
def publish (st : RTCState) (enable : Bool) (roleOverride : Option String)
    (out : PublishResponse) : Except String (RTCState × List Event) :=
  match st.roomId, st.clientId with
  | some rid, some cid => .ok (publishOk st enable roleOverride rid cid out)
  | _, _ => .error "join the room first"

/-- A parsed JSON body, reduced to what `_post` inspects of it: its `error`
property (`some e` for a truthy string value `e`, `none` when the property
is absent or falsy). -/
inductive JsonVal where
  | withError (e : Option String)
  deriving DecidableEq, Repr

/-- An HTTP response as `fetch` delivers it: status, raw body text, and the
result of `JSON.parse(bodyText)` (`none` when parsing throws). -/
structure HttpResponse where
  status : Nat
  bodyText : String := ""
  parsed : Option JsonVal := none
  deriving DecidableEq, Repr

/-- The outcome of the `fetch` + `text()` step of `_post`: a transport
error, or a delivered response. -/
inductive FetchOutcome where
  | fail (msg : String)
  | ok (r : HttpResponse)
  deriving DecidableEq, Repr

/-- `Response.ok`: the status is in the 2xx range. -/
def statusOk (s : Nat) : Bool :=
  200 ≤ s && s ≤ 299

/-- The value `_post` resolves with: the parsed JSON body, the `{raw: txt}`
wrapper for an unparseable body, or `{}` for an empty body. -/
inductive PostValue where
  | parsed (errField : Option String)
  | rawWrapped (txt : String)
  | emptyObj
  deriving DecidableEq, Repr

/-- `WeAllAPI._post`, after the request body has been sent: read the body
text, parse it (empty text becomes `{}`, a parse failure becomes
`{raw: txt}` — never a rejection), then reject with `json.error` or the
status when the response is not 2xx, else resolve with the body value. -/
def post (f : FetchOutcome) : Except String PostValue :=
  match f with
  | .fail msg => .error msg
  | .ok r =>
    let json : PostValue :=
      if r.bodyText == "" then .emptyObj
      else
        match r.parsed with
        | some (.withError e) => .parsed e
        | none => .rawWrapped r.bodyText
    if statusOk r.status then .ok json
    else
      .error (match json with
        | .parsed (some e) => e
        | _ => toString r.status)

/-- Whether `_post` resolves (rather than rejects). -/
def postSucceeds (f : FetchOutcome) : Bool :=
  match post f with
  | .ok _ => true
  | .error _ => false

/-! ### Basic lemmas: the connection map and field preservation -/

@[simp] theorem updatePC_roomId (st : RTCState) (k : String) (f : PC → PC) :
    (updatePC st k f).roomId = st.roomId := rfl

@[simp] theorem updatePC_clientId (st : RTCState) (k : String) (f : PC → PC) :
    (updatePC st k f).clientId = st.clientId := rfl

@[simp] theorem updatePC_lastMid (st : RTCState) (k : String) (f : PC → PC) :
    (updatePC st k f).lastMid = st.lastMid := rfl

@[simp] theorem updatePC_isPublisher (st : RTCState) (k : String) (f : PC → PC) :
    (updatePC st k f).isPublisher = st.isPublisher := rfl

@[simp] theorem updatePC_localStream (st : RTCState) (k : String) (f : PC → PC) :
    (updatePC st k f).localStream = st.localStream := rfl

@[simp] theorem updatePC_role (st : RTCState) (k : String) (f : PC → PC) :
    (updatePC st k f).role = st.role := rfl

@[simp] theorem updatePC_pollAbort (st : RTCState) (k : String) (f : PC → PC) :
    (updatePC st k f).pollAbort = st.pollAbort := rfl

@[simp] theorem updatePC_length (st : RTCState) (k : String) (f : PC → PC) :
    (updatePC st k f).pcMap.length = st.pcMap.length := by
  simp [updatePC, aupdate]

@[simp] theorem pcFor_roomId (st : RTCState) (k : String) :
    (pcFor st k).roomId = st.roomId := by
  unfold pcFor; split <;> rfl

@[simp] theorem pcFor_clientId (st : RTCState) (k : String) :
    (pcFor st k).clientId = st.clientId := by
  unfold pcFor; split <;> rfl

@[simp] theorem pcFor_lastMid (st : RTCState) (k : String) :
    (pcFor st k).lastMid = st.lastMid := by
  unfold pcFor; split <;> rfl

@[simp] theorem pcFor_isPublisher (st : RTCState) (k : String) :
    (pcFor st k).isPublisher = st.isPublisher := by
  unfold pcFor; split <;> rfl

@[simp] theorem pcFor_localStream (st : RTCState) (k : String) :
    (pcFor st k).localStream = st.localStream := by
  unfold pcFor; split <;> rfl

@[simp] theorem pcFor_role (st : RTCState) (k : String) :
    (pcFor st k).role = st.role := by
  unfold pcFor; split <;> rfl

@[simp] theorem pcFor_pollAbort (st : RTCState) (k : String) :
    (pcFor st k).pollAbort = st.pollAbort := by
  unfold pcFor; split <;> rfl

@[simp] theorem makeOffer_roomId (st : RTCState) (k : String) :
    (makeOffer st k).1.roomId = st.roomId := by
  simp [makeOffer]

@[simp] theorem makeOffer_clientId (st : RTCState) (k : String) :
    (makeOffer st k).1.clientId = st.clientId := by
  simp [makeOffer]

@[simp] theorem makeOffer_lastMid (st : RTCState) (k : String) :
    (makeOffer st k).1.lastMid = st.lastMid := by
  simp [makeOffer]

@[simp] theorem makeOffer_isPublisher (st : RTCState) (k : String) :
    (makeOffer st k).1.isPublisher = st.isPublisher := by
  simp [makeOffer]

@[simp] theorem makeOffer_localStream (st : RTCState) (k : String) :
    (makeOffer st k).1.localStream = st.localStream := by
  simp [makeOffer]

@[simp] theorem makeOffer_role (st : RTCState) (k : String) :
    (makeOffer st k).1.role = st.role := by
  simp [makeOffer]

@[simp] theorem makeOffer_pollAbort (st : RTCState) (k : String) :
    (makeOffer st k).1.pollAbort = st.pollAbort := by
  simp [makeOffer]

theorem makeOffer_events (st : RTCState) (k cid : String) (h : st.clientId = some cid) :
    (makeOffer st k).2 = [Event.signalSent cid k "offer"] := by
  simp [makeOffer, selfStr, h]

@[simp] theorem handleOffer_roomId (st : RTCState) (s p : String) :
    (handleOffer st s p).1.roomId = st.roomId := by
  simp [handleOffer]

@[simp] theorem handleOffer_clientId (st : RTCState) (s p : String) :
    (handleOffer st s p).1.clientId = st.clientId := by
  simp [handleOffer]

@[simp] theorem handleOffer_lastMid (st : RTCState) (s p : String) :
    (handleOffer st s p).1.lastMid = st.lastMid := by
  simp [handleOffer]

@[simp] theorem handleOffer_pollAbort (st : RTCState) (s p : String) :
    (handleOffer st s p).1.pollAbort = st.pollAbort := by
  simp [handleOffer]

@[simp] theorem handleAnswer_roomId (st : RTCState) (s p : String) :
    (handleAnswer st s p).roomId = st.roomId := by
  unfold handleAnswer; split <;> rfl

@[simp] theorem handleAnswer_clientId (st : RTCState) (s p : String) :
    (handleAnswer st s p).clientId = st.clientId := by
  unfold handleAnswer; split <;> rfl

@[simp] theorem handleAnswer_lastMid (st : RTCState) (s p : String) :
    (handleAnswer st s p).lastMid = st.lastMid := by
  unfold handleAnswer; split <;> rfl

@[simp] theorem handleAnswer_pollAbort (st : RTCState) (s p : String) :
    (handleAnswer st s p).pollAbort = st.pollAbort := by
  unfold handleAnswer; split <;> rfl

@[simp] theorem handleCandidate_roomId (st : RTCState) (s c : String) (b : Bool) :
    (handleCandidate st s c b).roomId = st.roomId := by
  unfold handleCandidate; split <;> simp

@[simp] theorem handleCandidate_clientId (st : RTCState) (s c : String) (b : Bool) :
    (handleCandidate st s c b).clientId = st.clientId := by
  unfold handleCandidate; split <;> simp

@[simp] theorem handleCandidate_lastMid (st : RTCState) (s c : String) (b : Bool) :
    (handleCandidate st s c b).lastMid = st.lastMid := by
  unfold handleCandidate; split <;> simp

@[simp] theorem handleCandidate_pollAbort (st : RTCState) (s c : String) (b : Bool) :
    (handleCandidate st s c b).pollAbort = st.pollAbort := by
  unfold handleCandidate; split <;> simp

theorem handleSignal_roomId (st : RTCState) (m : SignalMessage) :
    (handleSignal st m).1.roomId = st.roomId := by
  unfold handleSignal
  split
  · simp
  split
  · simp
  split
  · simp
  split
  · split <;> rfl
  split
  · split
    · split
      · simp [makeOffer]
      · rfl
    · rfl
  · rfl

theorem handleSignal_clientId (st : RTCState) (m : SignalMessage) :
    (handleSignal st m).1.clientId = st.clientId := by
  unfold handleSignal
  split
  · simp
  split
  · simp
  split
  · simp
  split
  · split <;> rfl
  split
  · split
    · split
      · simp [makeOffer]
      · rfl
    · rfl
  · rfl

theorem handleSignal_lastMid (st : RTCState) (m : SignalMessage) :
    (handleSignal st m).1.lastMid = st.lastMid := by
  unfold handleSignal
  split
  · simp
  split
  · simp
  split
  · simp
  split
  · split <;> rfl
  split
  · split
    · split
      · simp [makeOffer]
      · rfl
    · rfl
  · rfl

theorem handleSignal_pollAbort (st : RTCState) (m : SignalMessage) :
    (handleSignal st m).1.pollAbort = st.pollAbort := by
  unfold handleSignal
  split
  · simp
  split
  · simp
  split
  · simp
  split
  · split <;> rfl
  split
  · split
    · split
      · simp [makeOffer]
      · rfl
    · rfl
  · rfl

/-- A handler raises only through a failing relay send or a failing roster
fetch: with both oracles reporting success it never raises. -/
theorem handleSignal_noRaise (st : RTCState) (m : SignalMessage)
    (h1 : m.relayOk = true) (h2 : m.stateOk = true) :
    (handleSignal st m).2.2 = false := by
  simp only [handleSignal]
  repeat' split
  all_goals simp_all

/-! ### Poll-loop lemmas -/

theorem processMessages_roomId (ms : List SignalMessage) : ∀ st : RTCState,
    (processMessages st ms).1.roomId = st.roomId := by
  induction ms with
  | nil => intro st; rfl
  | cons m ms ih =>
    intro st
    simp only [processMessages]
    split
    · exact ih _
    · split
      · next st2 evs heq =>
        have := handleSignal_roomId { st with lastMid := max st.lastMid m.mid } m
        rw [heq] at this
        exact this
      · next st2 evs heq =>
        have h1 := handleSignal_roomId { st with lastMid := max st.lastMid m.mid } m
        rw [heq] at h1
        have h2 := ih st2
        simp only []
        rw [h2, h1]

theorem processMessages_clientId (ms : List SignalMessage) : ∀ st : RTCState,
    (processMessages st ms).1.clientId = st.clientId := by
  induction ms with
  | nil => intro st; rfl
  | cons m ms ih =>
    intro st
    simp only [processMessages]
    split
    · exact ih _
    · split
      · next st2 evs heq =>
        have := handleSignal_clientId { st with lastMid := max st.lastMid m.mid } m
        rw [heq] at this
        exact this
      · next st2 evs heq =>
        have h1 := handleSignal_clientId { st with lastMid := max st.lastMid m.mid } m
        rw [heq] at h1
        have h2 := ih st2
        simp only []
        rw [h2, h1]

theorem processMessages_pollAbort (ms : List SignalMessage) : ∀ st : RTCState,
    (processMessages st ms).1.pollAbort = st.pollAbort := by
  induction ms with
  | nil => intro st; rfl
  | cons m ms ih =>
    intro st
    simp only [processMessages]
    split
    · exact ih _
    · split
      · next st2 evs heq =>
        have := handleSignal_pollAbort { st with lastMid := max st.lastMid m.mid } m
        rw [heq] at this
        exact this
      · next st2 evs heq =>
        have h1 := handleSignal_pollAbort { st with lastMid := max st.lastMid m.mid } m
        rw [heq] at h1
        have h2 := ih st2
        simp only []
        rw [h2, h1]

/-- The cursor only grows while a response's messages are processed. -/
theorem processMessages_lastMid_mono (ms : List SignalMessage) : ∀ st : RTCState,
    st.lastMid ≤ (processMessages st ms).1.lastMid := by
  induction ms with
  | nil => intro st; exact Nat.le_refl _
  | cons m ms ih =>
    intro st
    simp only [processMessages]
    split
    · exact le_trans (le_max_left _ _) (ih { st with lastMid := max st.lastMid m.mid })
    · split
      · next st2 evs heq =>
        have h1 := handleSignal_lastMid { st with lastMid := max st.lastMid m.mid } m
        rw [heq] at h1
        exact le_of_le_of_eq (le_max_left _ _) h1.symm
      · next st2 evs heq =>
        have h1 := handleSignal_lastMid { st with lastMid := max st.lastMid m.mid } m
        rw [heq] at h1
        exact le_trans (le_of_le_of_eq (le_max_left st.lastMid m.mid) h1.symm) (ih st2)

/-- When no handler raises, every message id of the response is observed
and the final cursor dominates each of them (and nothing raised). -/
theorem processMessages_allOk (ms : List SignalMessage) : ∀ st : RTCState,
    (∀ m ∈ ms, m.relayOk = true ∧ m.stateOk = true) →
    (processMessages st ms).2.2 = false ∧
      ∀ m ∈ ms, m.mid ≤ (processMessages st ms).1.lastMid := by
  induction ms with
  | nil => intro st _; exact ⟨rfl, by intro m hm; cases hm⟩
  | cons m ms ih =>
    intro st hok
    have hm := hok m (List.mem_cons_self m ms)
    have hrest : ∀ x ∈ ms, x.relayOk = true ∧ x.stateOk = true := by
      intro x hx; exact hok x (List.mem_cons_of_mem m hx)
    simp only [processMessages]
    split
    · refine ⟨(ih _ hrest).1, ?_⟩
      intro x hx
      rcases List.mem_cons.mp hx with h | h
      · subst h
        exact le_trans (le_max_right st.lastMid x.mid)
          (processMessages_lastMid_mono ms { st with lastMid := max st.lastMid x.mid })
      · exact (ih _ hrest).2 x h
    · split
      · next st2 evs heq =>
        have := handleSignal_noRaise { st with lastMid := max st.lastMid m.mid } m hm.1 hm.2
        rw [heq] at this
        cases this
      · next st2 evs heq =>
        have hlast := handleSignal_lastMid { st with lastMid := max st.lastMid m.mid } m
        rw [heq] at hlast
        refine ⟨(ih st2 hrest).1, ?_⟩
        intro x hx
        rcases List.mem_cons.mp hx with h | h
        · subst h
          exact le_trans (le_of_le_of_eq (le_max_right st.lastMid x.mid) hlast.symm)
            (processMessages_lastMid_mono ms st2)
        · exact (ih st2 hrest).2 x h

theorem pollCycle_roomId (st : RTCState) (c : PollOutcome) :
    (pollCycle st c).1.roomId = st.roomId := by
  cases c with
  | err => rfl
  | ok r =>
    simp only [pollCycle]
    split
    · next st2 evs heq =>
      have := processMessages_roomId r.messages
        { st with lastMid := if r.last_mid == 0 then st.lastMid else r.last_mid }
      rw [heq] at this
      exact this
    · next st2 evs heq =>
      have := processMessages_roomId r.messages
        { st with lastMid := if r.last_mid == 0 then st.lastMid else r.last_mid }
      rw [heq] at this
      exact this

theorem pollCycle_clientId (st : RTCState) (c : PollOutcome) :
    (pollCycle st c).1.clientId = st.clientId := by
  cases c with
  | err => rfl
  | ok r =>
    simp only [pollCycle]
    split
    · next st2 evs heq =>
      have := processMessages_clientId r.messages
        { st with lastMid := if r.last_mid == 0 then st.lastMid else r.last_mid }
      rw [heq] at this
      exact this
    · next st2 evs heq =>
      have := processMessages_clientId r.messages
        { st with lastMid := if r.last_mid == 0 then st.lastMid else r.last_mid }
      rw [heq] at this
      exact this

theorem pollCycle_pollAbort (st : RTCState) (c : PollOutcome) :
    (pollCycle st c).1.pollAbort = st.pollAbort := by
  cases c with
  | err => rfl
  | ok r =>
    simp only [pollCycle]
    split
    · next st2 evs heq =>
      have := processMessages_pollAbort r.messages
        { st with lastMid := if r.last_mid == 0 then st.lastMid else r.last_mid }
      rw [heq] at this
      exact this
    · next st2 evs heq =>
      have := processMessages_pollAbort r.messages
        { st with lastMid := if r.last_mid == 0 then st.lastMid else r.last_mid }
      rw [heq] at this
      exact this

/-- An errored cycle ends in the fixed 800 ms backoff. -/
theorem pollCycle_raised_backoff (st : RTCState) (c : PollOutcome)
    (h : (pollCycle st c).2.2 = true) :
    ∃ evs, (pollCycle st c).2.1 = evs ++ [Event.backoff 800] := by
  cases c with
  | err => exact ⟨[], rfl⟩
  | ok r =>
    simp only [pollCycle] at h ⊢
    split at h
    · next st2 evs heq => exact ⟨evs, rfl⟩
    · next st2 evs heq => simp at h

/-- The loop exits with `aborted` only when the abort flag was observed
set at an iteration start: it was set initially, or some cooperative
`leaveRoom` set it during an earlier iteration. -/
theorem pollLoop_aborted_obs (ins : List (Bool × PollOutcome)) : ∀ st : RTCState,
    (pollLoop st ins).2.2 = ExitReason.aborted →
    st.pollAbort = true ∨ ∃ i ∈ ins, i.1 = true := by
  induction ins with
  | nil =>
    intro st h
    simp only [pollLoop] at h
    split at h
    · left; assumption
    · cases h
  | cons i rest ih =>
    intro st h
    obtain ⟨ext, c⟩ := i
    simp only [pollLoop] at h
    split at h
    · left; assumption
    · next habort =>
      cases ext with
      | true => right; exact ⟨(true, c), List.mem_cons_self _ _, rfl⟩
      | false =>
        simp only [Bool.false_eq_true, if_false] at h
        replace h : (pollLoop (pollCycle st c).1 rest).2.2 = ExitReason.aborted := h
        rcases ih _ h with h2 | ⟨j, hj, hjt⟩
        · rw [pollCycle_pollAbort] at h2
          left; exact h2
        · right; exact ⟨j, List.mem_cons_of_mem _ hj, hjt⟩

/-- While the abort flag stays unset (no external `leaveRoom`), the loop
never terminates — every scheduled iteration, errored or not, is followed
by another one until the modelled schedule runs out. -/
theorem pollLoop_no_abort (ins : List (Bool × PollOutcome)) : ∀ st : RTCState,
    st.pollAbort = false → (∀ i ∈ ins, i.1 = false) →
    (pollLoop st ins).2.2 = ExitReason.inputsExhausted := by
  induction ins with
  | nil =>
    intro st h _
    simp only [pollLoop, h]
    rfl
  | cons i rest ih =>
    intro st h hext
    obtain ⟨ext, c⟩ := i
    have hext1 : ext = false := hext (ext, c) (List.mem_cons_self _ _)
    subst hext1
    simp only [pollLoop, h]
    simp only [Bool.false_eq_true, if_false]
    apply ih
    · rw [pollCycle_pollAbort]; exact h
    · intro j hj; exact hext j (List.mem_cons_of_mem _ hj)

/-! ### Lookup lemmas for the connection map -/

theorem alookup_cons (a : String × PC) (m : List (String × PC)) (k : String) :
    alookup (a :: m) k = if a.1 == k then some a.2 else alookup m k := by
  unfold alookup
  rw [List.find?_cons]
  cases h : a.1 == k <;> simp [h]

theorem aupdate_cons (a : String × PC) (m : List (String × PC)) (k : String) (f : PC → PC) :
    aupdate (a :: m) k f = (if a.1 == k then (a.1, f a.2) else a) :: aupdate m k f := rfl

theorem alookup_append_left {m l : List (String × PC)} {k : String} {pc : PC}
    (h : alookup m k = some pc) : alookup (m ++ l) k = some pc := by
  induction m with
  | nil => simp [alookup] at h
  | cons a as ih =>
    rw [List.cons_append, alookup_cons]
    rw [alookup_cons] at h
    cases hb : a.1 == k
    · rw [hb] at h
      simp only [Bool.false_eq_true, if_false] at h ⊢
      exact ih h
    · rw [hb] at h
      simp only [if_true] at h ⊢
      exact h

theorem alookup_append_right {m : List (String × PC)} {k : String}
    (l : List (String × PC)) (h : alookup m k = none) :
    alookup (m ++ l) k = alookup l k := by
  induction m with
  | nil => rfl
  | cons a as ih =>
    rw [List.cons_append, alookup_cons]
    rw [alookup_cons] at h
    cases hb : a.1 == k
    · rw [hb] at h
      simp only [Bool.false_eq_true, if_false] at h ⊢
      exact ih h
    · rw [hb] at h
      simp at h

theorem alookup_aupdate_self (m : List (String × PC)) (k : String) (f : PC → PC) :
    alookup (aupdate m k f) k = (alookup m k).map f := by
  induction m with
  | nil => rfl
  | cons a as ih =>
    rw [aupdate_cons]
    cases hb : a.1 == k
    · rw [alookup_cons]
      simp only [Bool.false_eq_true, if_false]
      rw [alookup_cons, hb]
      simp only [Bool.false_eq_true, if_false]
      exact ih
    · rw [alookup_cons]
      simp only [if_true]
      rw [alookup_cons, hb]
      simp [hb]

theorem alookup_aupdate_ne (m : List (String × PC)) (k k' : String) (f : PC → PC)
    (hne : k' ≠ k) : alookup (aupdate m k f) k' = alookup m k' := by
  induction m with
  | nil => rfl
  | cons a as ih =>
    rw [aupdate_cons, alookup_cons, alookup_cons]
    cases hb : a.1 == k
    · simp only [Bool.false_eq_true, if_false]
      rw [ih]
    · simp only [if_true]
      have hk : a.1 = k := by
        have := beq_iff_eq.mp hb
        exact this
      have hb' : (a.1 == k') = false := beq_eq_false_iff_ne.mpr (by rw [hk]; exact Ne.symm hne)
      simp only [hb', Bool.false_eq_true, if_false]
      rw [ih]

theorem lookupPC_updatePC_self (st : RTCState) (k : String) (f : PC → PC) :
    lookupPC (updatePC st k f) k = (lookupPC st k).map f :=
  alookup_aupdate_self st.pcMap k f

theorem lookupPC_updatePC_ne (st : RTCState) (k k' : String) (f : PC → PC)
    (hne : k' ≠ k) : lookupPC (updatePC st k f) k' = lookupPC st k' :=
  alookup_aupdate_ne st.pcMap k k' f hne

theorem pcFor_found (st : RTCState) (k : String) (pc : PC)
    (h : lookupPC st k = some pc) : pcFor st k = st := by
  unfold pcFor
  rw [h]

theorem lookupPC_pcFor_new (st : RTCState) (k : String)
    (h : lookupPC st k = none) :
    lookupPC (pcFor st k) k = some { hasLocalTracks := st.isPublisher && st.localStream } := by
  unfold pcFor
  rw [h]
  show alookup (st.pcMap ++ [(k, _)]) k = _
  rw [alookup_append_right _ h, alookup_cons]
  simp

theorem pcFor_length_new (st : RTCState) (k : String)
    (h : lookupPC st k = none) :
    (pcFor st k).pcMap.length = st.pcMap.length + 1 := by
  unfold pcFor
  rw [h]
  simp

theorem lookupPC_pcFor_ne (st : RTCState) (k k' : String) (hne : k' ≠ k) :
    lookupPC (pcFor st k) k' = lookupPC st k' := by
  unfold pcFor
  cases hfind : lookupPC st k with
  | some pc => rfl
  | none =>
    show alookup (st.pcMap ++ [(k, _)]) k' = _
    cases hfind' : alookup st.pcMap k' with
    | some x =>
      rw [alookup_append_left hfind']
      exact hfind'.symm
    | none =>
      rw [alookup_append_right _ hfind', alookup_cons]
      have hb : (k == k') = false := beq_eq_false_iff_ne.mpr (Ne.symm hne)
      rw [hb]
      simp only [Bool.false_eq_true, if_false]
      exact hfind'.symm

/-! ### Media and offer-loop lemmas -/

@[simp] theorem startMedia_localStream (st : RTCState) :
    (startMedia st).1.localStream = true := by
  simp only [startMedia]
  split
  · assumption
  · split <;> rfl

@[simp] theorem startMedia_isPublisher (st : RTCState) :
    (startMedia st).1.isPublisher = st.isPublisher := by
  simp only [startMedia]
  split
  · rfl
  · split <;> rfl

@[simp] theorem startMedia_role (st : RTCState) :
    (startMedia st).1.role = st.role := by
  simp only [startMedia]
  split
  · rfl
  · split <;> rfl

@[simp] theorem startMedia_clientId (st : RTCState) :
    (startMedia st).1.clientId = st.clientId := by
  simp only [startMedia]
  split
  · rfl
  · split <;> rfl

@[simp] theorem startMedia_roomId (st : RTCState) :
    (startMedia st).1.roomId = st.roomId := by
  simp only [startMedia]
  split
  · rfl
  · split <;> rfl

@[simp] theorem startMedia_lastMid (st : RTCState) :
    (startMedia st).1.lastMid = st.lastMid := by
  simp only [startMedia]
  split
  · rfl
  · split <;> rfl

@[simp] theorem stopMedia_localStream (st : RTCState) :
    (stopMedia st).1.localStream = false := by
  simp only [stopMedia]
  split
  · rfl
  · next h => simpa using h

@[simp] theorem stopMedia_roomId (st : RTCState) :
    (stopMedia st).1.roomId = st.roomId := by
  simp only [stopMedia]
  split <;> rfl

@[simp] theorem stopMedia_clientId (st : RTCState) :
    (stopMedia st).1.clientId = st.clientId := by
  simp only [stopMedia]
  split <;> rfl

@[simp] theorem stopMedia_lastMid (st : RTCState) :
    (stopMedia st).1.lastMid = st.lastMid := by
  simp only [stopMedia]
  split <;> rfl

@[simp] theorem stopMedia_pcMap (st : RTCState) :
    (stopMedia st).1.pcMap = st.pcMap := by
  simp only [stopMedia]
  split <;> rfl

@[simp] theorem stopMedia_pollAbort (st : RTCState) :
    (stopMedia st).1.pollAbort = st.pollAbort := by
  simp only [stopMedia]
  split <;> rfl

theorem offerLoopJoin_clientId (cid : String) (ps : List Participant) :
    ∀ (s : RTCState) (e : List Event),
    (offerLoopJoin cid (s, e) ps).1.clientId = s.clientId := by
  induction ps with
  | nil => intro s e; rfl
  | cons p ps ih =>
    intro s e
    simp only [offerLoopJoin]
    split
    · rw [ih]
      simp
    · exact ih s e

theorem offerLoopJoin_isPublisher (cid : String) (ps : List Participant) :
    ∀ (s : RTCState) (e : List Event),
    (offerLoopJoin cid (s, e) ps).1.isPublisher = s.isPublisher := by
  induction ps with
  | nil => intro s e; rfl
  | cons p ps ih =>
    intro s e
    simp only [offerLoopJoin]
    split
    · rw [ih]
      simp
    · exact ih s e

theorem offerLoopJoin_role (cid : String) (ps : List Participant) :
    ∀ (s : RTCState) (e : List Event),
    (offerLoopJoin cid (s, e) ps).1.role = s.role := by
  induction ps with
  | nil => intro s e; rfl
  | cons p ps ih =>
    intro s e
    simp only [offerLoopJoin]
    split
    · rw [ih]
      simp
    · exact ih s e

theorem offerLoopJoin_mem (cid : String) (ps : List Participant) :
    ∀ (s : RTCState) (e : List Event) (x : Event), x ∈ e →
    x ∈ (offerLoopJoin cid (s, e) ps).2 := by
  induction ps with
  | nil => intro s e x hx; exact hx
  | cons p ps ih =>
    intro s e x hx
    simp only [offerLoopJoin]
    split
    · exact ih _ _ x (List.mem_append_left _ hx)
    · exact ih _ _ x hx

/-- When publishing, the initial-offer loop of `joinRoom` sends an offer to
every roster entry other than self. -/
theorem offerLoopJoin_offers (cid : String) (ps : List Participant) :
    ∀ (s : RTCState) (e : List Event),
    s.clientId = some cid → s.isPublisher = true →
    ∀ p ∈ ps, p.client_id ≠ cid →
    Event.signalSent cid p.client_id "offer" ∈ (offerLoopJoin cid (s, e) ps).2 := by
  induction ps with
  | nil => intro s e _ _ p hp; cases hp
  | cons q ps ih =>
    intro s e hcid hpub p hp hne
    rcases List.mem_cons.mp hp with h | h
    · subst h
      simp only [offerLoopJoin]
      rw [if_pos (by simp [hpub, bne_iff_ne, hne])]
      apply offerLoopJoin_mem
      rw [makeOffer_events s p.client_id cid hcid]
      exact List.mem_append_right _ (List.mem_singleton.mpr rfl)
    · simp only [offerLoopJoin]
      split
      · exact ih _ _ (by rw [makeOffer_clientId]; exact hcid)
          (by rw [makeOffer_isPublisher]; exact hpub) p h hne
      · exact ih _ _ hcid hpub p h hne

/-- A non-publishing session sends no offers from the join loop. -/
theorem offerLoopJoin_no_offers (cid : String) (ps : List Participant) :
    ∀ (s : RTCState) (e : List Event), s.isPublisher = false →
    (offerLoopJoin cid (s, e) ps).2 = e := by
  induction ps with
  | nil => intro s e _; rfl
  | cons p ps ih =>
    intro s e hpub
    simp only [offerLoopJoin]
    split
    · next hcond =>
      rw [hpub] at hcond
      simp at hcond
    · exact ih s e hpub

theorem offerLoopPublish_clientId (cid : String) (ps : List Participant) :
    ∀ (s : RTCState) (e : List Event),
    (offerLoopPublish cid (s, e) ps).1.clientId = s.clientId := by
  induction ps with
  | nil => intro s e; rfl
  | cons p ps ih =>
    intro s e
    simp only [offerLoopPublish]
    split
    · exact ih s e
    · rw [ih]
      simp

theorem offerLoopPublish_isPublisher (cid : String) (ps : List Participant) :
    ∀ (s : RTCState) (e : List Event),
    (offerLoopPublish cid (s, e) ps).1.isPublisher = s.isPublisher := by
  induction ps with
  | nil => intro s e; rfl
  | cons p ps ih =>
    intro s e
    simp only [offerLoopPublish]
    split
    · exact ih s e
    · rw [ih]
      simp

theorem offerLoopPublish_localStream (cid : String) (ps : List Participant) :
    ∀ (s : RTCState) (e : List Event),
    (offerLoopPublish cid (s, e) ps).1.localStream = s.localStream := by
  induction ps with
  | nil => intro s e; rfl
  | cons p ps ih =>
    intro s e
    simp only [offerLoopPublish]
    split
    · exact ih s e
    · rw [ih]
      simp

theorem offerLoopPublish_mem (cid : String) (ps : List Participant) :
    ∀ (s : RTCState) (e : List Event) (x : Event), x ∈ e →
    x ∈ (offerLoopPublish cid (s, e) ps).2 := by
  induction ps with
  | nil => intro s e x hx; exact hx
  | cons p ps ih =>
    intro s e x hx
    simp only [offerLoopPublish]
    split
    · exact ih _ _ x hx
    · exact ih _ _ x (List.mem_append_left _ hx)

/-- The offer loop of `publish(true)` sends an offer to every roster entry
other than self. -/
theorem offerLoopPublish_offers (cid : String) (ps : List Participant) :
    ∀ (s : RTCState) (e : List Event),
    s.clientId = some cid →
    ∀ p ∈ ps, p.client_id ≠ cid →
    Event.signalSent cid p.client_id "offer" ∈ (offerLoopPublish cid (s, e) ps).2 := by
  induction ps with
  | nil => intro s e _ p hp; cases hp
  | cons q ps ih =>
    intro s e hcid p hp hne
    rcases List.mem_cons.mp hp with h | h
    · subst h
      simp only [offerLoopPublish]
      rw [if_neg (by simp [hne])]
      apply offerLoopPublish_mem
      rw [makeOffer_events s p.client_id cid hcid]
      exact List.mem_append_right _ (List.mem_singleton.mpr rfl)
    · simp only [offerLoopPublish]
      split
      · exact ih _ _ hcid p h hne
      · exact ih _ _ (by rw [makeOffer_clientId]; exact hcid) p h hne

/-! ### Further helper lemmas -/

theorem selfStr_congr {a b : RTCState} (h : a.clientId = b.clientId) :
    selfStr a = selfStr b := by
  unfold selfStr
  rw [h]

theorem stopMedia_events (st : RTCState) :
    (stopMedia st).2 = if st.localStream then [Event.mediaStopped] else [] := by
  simp only [stopMedia]
  split <;> simp_all

/-- The state after a successful poll cycle is the state after processing
the messages from the server-supplied cursor. -/
theorem pollCycle_ok_state (st : RTCState) (r : PollResponse) :
    (pollCycle st (.ok r)).1
      = (processMessages
          { st with lastMid := if r.last_mid == 0 then st.lastMid else r.last_mid }
          r.messages).1 := by
  simp only [pollCycle]
  split
  · next st2 evs heq => rw [heq]
  · next st2 evs heq => rw [heq]

/-- A repeated offer from a sender with a held connection does not grow the
map and answers again. -/
theorem handleOffer_existing (st : RTCState) (sender sdp : String) (pc : PC)
    (h : lookupPC st sender = some pc) :
    (handleOffer st sender sdp).1.pcMap.length = st.pcMap.length
    ∧ (handleOffer st sender sdp).2 = [Event.signalSent (selfStr st) sender "answer"] := by
  constructor
  · simp only [handleOffer]
    rw [pcFor_found st sender pc h, updatePC_length]
  · simp [handleOffer, selfStr]

theorem rtc_eta_pollAbort (s : RTCState) (h : s.pollAbort = true) :
    { s with pollAbort := true } = s := by
  cases s
  simp_all

theorem rtc_eta_pcMap (s : RTCState) (h : s.pcMap = []) :
    { s with pcMap := [] } = s := by
  cases s
  simp_all

theorem stopMedia_of_false (s : RTCState) (h : s.localStream = false) :
    stopMedia s = (s, []) := by
  unfold stopMedia
  rw [h]
  simp

theorem leaveRoom_eq (st : RTCState) (rid cid : String)
    (h1 : st.roomId = some rid) (h2 : st.clientId = some cid) :
    leaveRoom st
      = ((stopMedia { st with pollAbort := true, pcMap := [] }).1,
         [Event.apiLeave rid cid] ++ st.pcMap.map (fun e => Event.pcClosed e.1)
           ++ (stopMedia { st with pollAbort := true, pcMap := [] }).2
           ++ [Event.onDisconnected]) := by
  unfold leaveRoom
  rw [h1, h2]

theorem leaveRoom_fields (st : RTCState) (rid cid : String)
    (h1 : st.roomId = some rid) (h2 : st.clientId = some cid) :
    (leaveRoom st).1.roomId = some rid
    ∧ (leaveRoom st).1.clientId = some cid
    ∧ (leaveRoom st).1.pcMap = []
    ∧ (leaveRoom st).1.localStream = false
    ∧ (leaveRoom st).1.pollAbort = true
    ∧ (leaveRoom st).1.lastMid = st.lastMid
    ∧ (leaveRoom st).2
        = [Event.apiLeave rid cid] ++ st.pcMap.map (fun e => Event.pcClosed e.1)
          ++ (if st.localStream then [Event.mediaStopped] else [])
          ++ [Event.onDisconnected] := by
  rw [leaveRoom_eq st rid cid h1 h2]
  refine ⟨?_, ?_, ?_, ?_, ?_, ?_, ?_⟩
  · show (stopMedia { st with pollAbort := true, pcMap := [] }).1.roomId = some rid
    rw [stopMedia_roomId]
    exact h1
  · show (stopMedia { st with pollAbort := true, pcMap := [] }).1.clientId = some cid
    rw [stopMedia_clientId]
    exact h2
  · show (stopMedia { st with pollAbort := true, pcMap := [] }).1.pcMap = []
    rw [stopMedia_pcMap]
  · show (stopMedia { st with pollAbort := true, pcMap := [] }).1.localStream = false
    rw [stopMedia_localStream]
  · show (stopMedia { st with pollAbort := true, pcMap := [] }).1.pollAbort = true
    rw [stopMedia_pollAbort]
  · show (stopMedia { st with pollAbort := true, pcMap := [] }).1.lastMid = st.lastMid
    rw [stopMedia_lastMid]
  · show _ = _
    rw [stopMedia_events]

theorem leaveRoom_of_closed (s : RTCState) (rid cid : String)
    (h1 : s.roomId = some rid) (h2 : s.clientId = some cid)
    (h3 : s.pcMap = []) (h4 : s.localStream = false) (h5 : s.pollAbort = true) :
    leaveRoom s = (s, [Event.apiLeave rid cid, Event.onDisconnected]) := by
  rw [leaveRoom_eq s rid cid h1 h2]
  have he : ({ s with pollAbort := true, pcMap := [] } : RTCState) = s := by
    cases s
    simp_all
  rw [he, stopMedia_of_false s h4, h3]
  simp

/-! ### Claim theorems -/

/-- C1 counterexample: with local cursor 10, processing a poll response
whose server-reported cursor is 5 and which carries no messages sets
`lastMid` to 5 — the cursor regresses, because `_pollLoop` assigns the
truthy server cursor (`this.lastMid = r.last_mid || this.lastMid`) instead
of taking a maximum.  This falsifies the claim that `lastMid` never
decreases across poll responses whose server cursor is smaller than the
current cursor. -/
theorem c1_counterexample :
    (pollCycle { lastMid := 10 } (PollOutcome.ok { last_mid := 5 })).1.lastMid = 5
    ∧ (5 : Nat) < ({ lastMid := 10 } : RTCState).lastMid := by
  refine ⟨by decide, by decide⟩

/-- C1 (amended): after a poll cycle, `lastMid` equals the fold of `max`
over the observed message ids starting from the server cursor when truthy
(else the previous value); consequently it never regresses *provided* the
server-reported cursor is absent/zero or at least the current cursor, it
dominates the server cursor, and — when no handler raises — it dominates
every message id of the response. -/
theorem c1_theorem (st : RTCState) (r : PollResponse)
    (h : r.last_mid = 0 ∨ st.lastMid ≤ r.last_mid) :
    st.lastMid ≤ (pollCycle st (.ok r)).1.lastMid
    ∧ r.last_mid ≤ (pollCycle st (.ok r)).1.lastMid
    ∧ ((∀ m ∈ r.messages, m.relayOk = true ∧ m.stateOk = true) →
        ∀ m ∈ r.messages, m.mid ≤ (pollCycle st (.ok r)).1.lastMid) := by
  rw [pollCycle_ok_state]
  have h1 : st.lastMid ≤ (if (r.last_mid == 0 : Bool) then st.lastMid else r.last_mid) := by
    by_cases hz : r.last_mid = 0
    · simp [hz]
    · rw [if_neg (by simpa using hz)]
      rcases h with h' | h'
      · exact absurd h' hz
      · exact h'
  have h2 : r.last_mid ≤ (if (r.last_mid == 0 : Bool) then st.lastMid else r.last_mid) := by
    by_cases hz : r.last_mid = 0
    · simp [hz]
    · rw [if_neg (by simpa using hz)]
  have hmono := processMessages_lastMid_mono r.messages
      { st with lastMid := if r.last_mid == 0 then st.lastMid else r.last_mid }
  refine ⟨le_trans h1 hmono, le_trans h2 hmono, ?_⟩
  intro hall m hm
  exact (processMessages_allOk r.messages _ hall).2 m hm

/-- C1 witness: the amended theorem applied at cursor 3 and a response with
server cursor 7 carrying message id 9. -/
theorem c1_witness :
    (3 : Nat) ≤ (pollCycle { lastMid := 3 }
        (.ok { last_mid := 7, messages := [{ mid := 9 }] })).1.lastMid
    ∧ (9 : Nat) ≤ (pollCycle { lastMid := 3 }
        (.ok { last_mid := 7, messages := [{ mid := 9 }] })).1.lastMid := by
  have h := c1_theorem { lastMid := 3 } { last_mid := 7, messages := [{ mid := 9 }] }
    (Or.inr (by decide))
  exact ⟨h.1, h.2.2 (by decide) { mid := 9 } (by decide)⟩

/-- C4: receiving an offer from a sender with no held connection creates
exactly one new connection for that sender, applies the offer's remote
description to it, leaves every other held connection untouched, and sends
exactly one answer addressed back to that sender; a second offer from the
same sender reuses the connection (the map does not grow) and again sends
exactly one answer. -/
theorem c4_theorem (st : RTCState) (sender sdp sdp2 : String)
    (h : lookupPC st sender = none) :
    (handleOffer st sender sdp).1.pcMap.length = st.pcMap.length + 1
    ∧ (lookupPC (handleOffer st sender sdp).1 sender).map (fun pc => pc.remoteDesc)
        = some (some sdp)
    ∧ (handleOffer st sender sdp).2 = [Event.signalSent (selfStr st) sender "answer"]
    ∧ (∀ k, k ≠ sender → lookupPC (handleOffer st sender sdp).1 k = lookupPC st k)
    ∧ (handleOffer (handleOffer st sender sdp).1 sender sdp2).1.pcMap.length
        = (handleOffer st sender sdp).1.pcMap.length
    ∧ (handleOffer (handleOffer st sender sdp).1 sender sdp2).2
        = [Event.signalSent (selfStr st) sender "answer"] := by
  have hself : lookupPC (handleOffer st sender sdp).1 sender
      = some { hasLocalTracks := st.isPublisher && st.localStream,
               localDesc := some ("answer:" ++ sdp), remoteDesc := some sdp,
               candidates := [] } := by
    simp only [handleOffer]
    rw [lookupPC_updatePC_self, lookupPC_pcFor_new st sender h]
    rfl
  refine ⟨?_, ?_, ?_, ?_, ?_, ?_⟩
  · simp only [handleOffer]
    rw [updatePC_length, pcFor_length_new st sender h]
  · rw [hself]
    rfl
  · simp [handleOffer, selfStr]
  · intro k hk
    simp only [handleOffer]
    rw [lookupPC_updatePC_ne _ _ _ _ hk, lookupPC_pcFor_ne _ _ _ hk]
  · exact (handleOffer_existing _ sender sdp2 _ hself).1
  · rw [(handleOffer_existing _ sender sdp2 _ hself).2,
      selfStr_congr (by simp : (handleOffer st sender sdp).1.clientId = st.clientId)]

/-- C4 witness: the theorem applied to a concrete session with client id
"me" receiving an offer from the unknown sender "p1". -/
theorem c4_witness :
    (handleOffer { clientId := some "me" } "p1" "sdpA").1.pcMap.length
        = ({ clientId := some "me" } : RTCState).pcMap.length + 1
    ∧ (handleOffer { clientId := some "me" } "p1" "sdpA").2
        = [Event.signalSent (selfStr { clientId := some "me" }) "p1" "answer"] :=
  ⟨(c4_theorem { clientId := some "me" } "p1" "sdpA" "sdpB" (by decide)).1,
   (c4_theorem { clientId := some "me" } "p1" "sdpA" "sdpB" (by decide)).2.2.1⟩

/-- C6 counterexample: a 200 response whose body is not parseable JSON still
resolves — `_post` wraps the unparseable text as `{raw: txt}` and returns it
because the status is 2xx.  This falsifies "succeeds if and only if the
response has a 2xx status *and* a parseable JSON body". -/
theorem c6_counterexample :
    post (.ok { status := 200, bodyText := "not-json", parsed := none })
      = .ok (.rawWrapped "not-json")
    ∧ statusOk 200 = true
    ∧ ({ status := 200, bodyText := "not-json", parsed := none } : HttpResponse).parsed
        = none := by
  refine ⟨by rfl, by decide, rfl⟩

/-- C6 (amended): the POST helper succeeds exactly when the transport
delivered a response with a 2xx status — parseability of the body does not
matter (an unparseable 2xx body is wrapped and returned) — and every
non-2xx response and every transport error fails. -/
theorem c6_theorem :
    (∀ r : HttpResponse, postSucceeds (.ok r) = statusOk r.status)
    ∧ (∀ msg : String, postSucceeds (.fail msg) = false) := by
  constructor
  · intro r
    cases hs : statusOk r.status <;> simp [postSucceeds, post, hs]
  · intro msg
    rfl

/-- C7: poll-cycle errors are contained.  (1) No cycle — errored or not —
changes the room or client id; (2) a failed poll request leaves the whole
state untouched and produces exactly the fixed 800 ms backoff; (3) every
errored cycle ends in the fixed backoff; (4) the loop exits only when the
abort flag was observed at the once-per-iteration check (set initially or
by a cooperative `leaveRoom` during an earlier iteration); (5) while the
abort flag stays unset, the loop never terminates, whatever errors occur. -/
theorem c7_theorem :
    (∀ (st : RTCState) (c : PollOutcome),
        (pollCycle st c).1.roomId = st.roomId ∧ (pollCycle st c).1.clientId = st.clientId)
    ∧ (∀ st : RTCState, pollCycle st .err = (st, [Event.backoff 800], true))
    ∧ (∀ (st : RTCState) (c : PollOutcome), (pollCycle st c).2.2 = true →
        ∃ evs, (pollCycle st c).2.1 = evs ++ [Event.backoff 800])
    ∧ (∀ (st : RTCState) (ins : List (Bool × PollOutcome)),
        (pollLoop st ins).2.2 = ExitReason.aborted →
        st.pollAbort = true ∨ ∃ i ∈ ins, i.1 = true)
    ∧ (∀ (st : RTCState) (ins : List (Bool × PollOutcome)),
        st.pollAbort = false → (∀ i ∈ ins, i.1 = false) →
        (pollLoop st ins).2.2 = ExitReason.inputsExhausted) :=
  ⟨fun st c => ⟨pollCycle_roomId st c, pollCycle_clientId st c⟩,
   fun _ => rfl,
   fun st c h => pollCycle_raised_backoff st c h,
   fun st ins h => pollLoop_aborted_obs ins st h,
   fun st ins h1 h2 => pollLoop_no_abort ins st h1 h2⟩

/-- C7 witness: the theorem exercised at concrete inputs — a failing poll
on a concrete state, a two-iteration schedule of failing polls with the
abort flag unset, and an initially-aborted loop. -/
theorem c7_witness :
    pollCycle { lastMid := 4 } .err = ({ lastMid := 4 }, [Event.backoff 800], true)
    ∧ (∃ evs, (pollCycle { lastMid := 4 } PollOutcome.err).2.1
        = evs ++ [Event.backoff 800])
    ∧ (pollLoop { lastMid := 4 } [(false, .err), (false, .err)]).2.2
        = ExitReason.inputsExhausted
    ∧ (({ pollAbort := true } : RTCState).pollAbort = true
        ∨ ∃ i ∈ ([] : List (Bool × PollOutcome)), i.1 = true) :=
  ⟨c7_theorem.2.1 { lastMid := 4 },
   c7_theorem.2.2.1 { lastMid := 4 } .err (by decide),
   c7_theorem.2.2.2.2 { lastMid := 4 } [(false, .err), (false, .err)] rfl (by decide),
   c7_theorem.2.2.2.1 { pollAbort := true } [] rfl⟩

/-- C8: an incoming ice-candidate message from a sender with a held
connection is handled best-effort: the handler never raises (whatever the
add's outcome), a failing `addIceCandidate` is swallowed leaving the whole
session state exactly unchanged, and a successful add changes nothing but
that sender's connection, which gains the candidate. -/
theorem c8_theorem (st : RTCState) (m : SignalMessage) (pc0 : PC)
    (hty : m.type = "candidate") (hpc : lookupPC st m.sender = some pc0) :
    (handleSignal st m).2.2 = false
    ∧ (handleSignal st m).2.1 = []
    ∧ (m.addOk = false → (handleSignal st m).1 = st)
    ∧ (m.addOk = true →
        lookupPC (handleSignal st m).1 m.sender
          = some { pc0 with candidates := pc0.candidates ++ [m.candidate] }
        ∧ (∀ k, k ≠ m.sender → lookupPC (handleSignal st m).1 k = lookupPC st k)
        ∧ (handleSignal st m).1.roomId = st.roomId
        ∧ (handleSignal st m).1.clientId = st.clientId
        ∧ (handleSignal st m).1.lastMid = st.lastMid
        ∧ (handleSignal st m).1.localStream = st.localStream
        ∧ (handleSignal st m).1.isPublisher = st.isPublisher
        ∧ (handleSignal st m).1.pollAbort = st.pollAbort) := by
  have hdisp : handleSignal st m
      = (handleCandidate st m.sender m.candidate m.addOk, [], false) := by
    simp [handleSignal, hty]
  rw [hdisp]
  refine ⟨rfl, rfl, ?_, ?_⟩
  · intro ha
    show handleCandidate st m.sender m.candidate m.addOk = st
    unfold handleCandidate
    rw [ha]
    simp only [Bool.false_eq_true, if_false]
    exact pcFor_found st m.sender pc0 hpc
  · intro ha
    have hc : handleCandidate st m.sender m.candidate m.addOk
        = updatePC st m.sender (fun pc => { pc with candidates := pc.candidates ++ [m.candidate] }) := by
      unfold handleCandidate
      rw [ha, pcFor_found st m.sender pc0 hpc]
      simp
    rw [hc]
    refine ⟨?_, ?_, by simp, by simp, by simp, by simp, by simp, by simp⟩
    · rw [lookupPC_updatePC_self, hpc]
      rfl
    · intro k hk
      exact lookupPC_updatePC_ne st m.sender k _ hk

/-- C8 witness: the theorem applied to a session holding a connection for
"p1" receiving a candidate message from "p1", for both add outcomes. -/
theorem c8_witness :
    (handleSignal { clientId := some "me", pcMap := [("p1", {})] }
        { sender := "p1", type := "candidate", candidate := "cand0", addOk := false }).2.2
      = false
    ∧ (handleSignal { clientId := some "me", pcMap := [("p1", {})] }
        { sender := "p1", type := "candidate", candidate := "cand0", addOk := false }).1
      = { clientId := some "me", pcMap := [("p1", {})] } :=
  ⟨(c8_theorem { clientId := some "me", pcMap := [("p1", {})] }
      { sender := "p1", type := "candidate", candidate := "cand0", addOk := false }
      {} rfl (by decide)).1,
   (c8_theorem { clientId := some "me", pcMap := [("p1", {})] }
      { sender := "p1", type := "candidate", candidate := "cand0", addOk := false }
      {} rfl (by decide)).2.2.1 rfl⟩

/-- C2 counterexample: after `leaveRoom` returns for a joined session with
room "room1", client "c1" and cursor 7, the room id, client id and cursor
all keep their old values — `leaveRoom` never clears `this.roomId`,
`this.clientId` or `this.lastMid`.  This falsifies the claim's "the room
identifier, client identifier, and polling cursor are reset". -/
theorem c2_counterexample :
    (leaveRoom { roomId := some "room1", clientId := some "c1", lastMid := 7, localStream := true, pcMap := [("p1", {})] }).1.roomId = some "room1"
    ∧ (leaveRoom { roomId := some "room1", clientId := some "c1", lastMid := 7, localStream := true, pcMap := [("p1", {})] }).1.clientId = some "c1"
    ∧ (leaveRoom { roomId := some "room1", clientId := some "c1", lastMid := 7, localStream := true, pcMap := [("p1", {})] }).1.lastMid = 7 := by
  refine ⟨by decide, by decide, by decide⟩

/-- C2 (amended): after `leaveRoom` returns for a joined session, every
held connection has been closed (a close is recorded per held peer) and
discarded (the map is empty), local media is stopped, the departure was
signalled to the server (the call is recorded; its failure is ignored), the
disconnect callback was invoked and the abort flag is set — but the room
identifier, client identifier and polling cursor are *not* reset: they
retain their pre-leave values. -/
theorem c2_theorem (st : RTCState) (rid cid : String)
    (h1 : st.roomId = some rid) (h2 : st.clientId = some cid) :
    (leaveRoom st).1.pcMap = []
    ∧ (leaveRoom st).1.localStream = false
    ∧ (leaveRoom st).1.pollAbort = true
    ∧ (∀ e ∈ st.pcMap, Event.pcClosed e.1 ∈ (leaveRoom st).2)
    ∧ Event.apiLeave rid cid ∈ (leaveRoom st).2
    ∧ Event.onDisconnected ∈ (leaveRoom st).2
    ∧ (leaveRoom st).1.roomId = some rid
    ∧ (leaveRoom st).1.clientId = some cid
    ∧ (leaveRoom st).1.lastMid = st.lastMid := by
  obtain ⟨f1, f2, f3, f4, f5, f6, f7⟩ := leaveRoom_fields st rid cid h1 h2
  refine ⟨f3, f4, f5, ?_, ?_, ?_, f1, f2, f6⟩
  · intro e he
    rw [f7]
    apply List.mem_append_left
    apply List.mem_append_left
    apply List.mem_append_right
    exact List.mem_map_of_mem _ he
  · rw [f7]
    apply List.mem_append_left
    apply List.mem_append_left
    apply List.mem_append_left
    exact List.mem_singleton.mpr rfl
  · rw [f7]
    apply List.mem_append_right
    exact List.mem_singleton.mpr rfl

/-- C2 witness: the amended theorem applied to a concrete joined session
holding one connection. -/
theorem c2_witness :
    (leaveRoom { roomId := some "r", clientId := some "c", lastMid := 3, localStream := true, pcMap := [("p1", {})] }).1.pcMap = []
    ∧ Event.apiLeave "r" "c" ∈ (leaveRoom { roomId := some "r", clientId := some "c", lastMid := 3, localStream := true, pcMap := [("p1", {})] }).2
    ∧ Event.pcClosed "p1" ∈ (leaveRoom { roomId := some "r", clientId := some "c", lastMid := 3, localStream := true, pcMap := [("p1", {})] }).2 :=
  ⟨(c2_theorem { roomId := some "r", clientId := some "c", lastMid := 3, localStream := true, pcMap := [("p1", {})] } "r" "c" rfl rfl).1,
   (c2_theorem { roomId := some "r", clientId := some "c", lastMid := 3, localStream := true, pcMap := [("p1", {})] } "r" "c" rfl rfl).2.2.2.2.1,
   (c2_theorem { roomId := some "r", clientId := some "c", lastMid := 3, localStream := true, pcMap := [("p1", {})] } "r" "c" rfl rfl).2.2.2.1
     ("p1", {}) (by decide)⟩

/-- C5 counterexample: a second successive `leaveRoom` call on a joined
session again signals the server (`api.leave`) and again invokes the
disconnect callback — the guard `!this.roomId || !this.clientId` does not
trip because the first call never cleared those fields.  This falsifies
"the second call performs no server call ... and invokes no callback". -/
theorem c5_counterexample :
    Event.apiLeave "room1" "c1" ∈
      (leaveRoom (leaveRoom { roomId := some "room1", clientId := some "c1", lastMid := 7, localStream := true, pcMap := [("p1", {})] }).1).2
    ∧ Event.onDisconnected ∈
      (leaveRoom (leaveRoom { roomId := some "room1", clientId := some "c1", lastMid := 7, localStream := true, pcMap := [("p1", {})] }).1).2 := by
  refine ⟨by decide, by decide⟩

/-- C5 (amended): `leaveRoom` never throws, and from the idle state (no
room or no client id) it is a complete no-op.  A second successive call
closes no connections and stops no media — the connection map is already
empty and the stream gone, so the call's full effect is to repeat the
server leave request and the disconnect callback, leaving the state
fixed. -/
theorem c5_theorem :
    (∀ st : RTCState, st.roomId = none → leaveRoom st = (st, []))
    ∧ (∀ st : RTCState, st.clientId = none → leaveRoom st = (st, []))
    ∧ (∀ (st : RTCState) (rid cid : String),
        st.roomId = some rid → st.clientId = some cid →
        leaveRoom (leaveRoom st).1
          = ((leaveRoom st).1, [Event.apiLeave rid cid, Event.onDisconnected])) := by
  refine ⟨?_, ?_, ?_⟩
  · intro st h
    unfold leaveRoom
    rw [h]
  · intro st h
    unfold leaveRoom
    rw [h]
    cases st.roomId <;> rfl
  · intro st rid cid h1 h2
    obtain ⟨f1, f2, f3, f4, f5, _, _⟩ := leaveRoom_fields st rid cid h1 h2
    exact leaveRoom_of_closed (leaveRoom st).1 rid cid f1 f2 f3 f4 f5

/-- C5 witness: the amended theorem applied at the idle initial state and
at a concrete joined session called twice. -/
theorem c5_witness :
    leaveRoom {} = ({}, [])
    ∧ leaveRoom (leaveRoom { roomId := some "r", clientId := some "c", pcMap := [("p1", {})] }).1
      = ((leaveRoom { roomId := some "r", clientId := some "c", pcMap := [("p1", {})] }).1,
         [Event.apiLeave "r" "c", Event.onDisconnected]) :=
  ⟨c5_theorem.1 {} rfl,
   c5_theorem.2.2 { roomId := some "r", clientId := some "c", pcMap := [("p1", {})] } "r" "c" rfl rfl⟩

/-! ### Join and publish lemmas -/

theorem makeOffer_events_selfStr (st : RTCState) (k : String) :
    (makeOffer st k).2 = [Event.signalSent (selfStr st) k "offer"] := by
  simp [makeOffer, selfStr]

theorem joinOk_isPublisher (st : RTCState) (args : JoinArgs) (genId rid : String)
    (res : JoinResponse) :
    (joinOk st args genId rid res).1.isPublisher
      = grantedPublisher res.participants (args.clientId.getD genId) := by
  simp only [joinOk]
  rw [offerLoopJoin_isPublisher]
  split
  · rw [startMedia_isPublisher]
  · rfl

theorem joinOk_role (st : RTCState) (args : JoinArgs) (genId rid : String)
    (res : JoinResponse) :
    (joinOk st args genId rid res).1.role
      = grantedRole res.participants (args.clientId.getD genId)
          (args.role.getD "observer") := by
  simp only [joinOk]
  rw [offerLoopJoin_role]
  split
  · rw [startMedia_role]
  · rfl

theorem joinOk_clientId (st : RTCState) (args : JoinArgs) (genId rid : String)
    (res : JoinResponse) :
    (joinOk st args genId rid res).1.clientId = some (args.clientId.getD genId) := by
  simp only [joinOk]
  rw [offerLoopJoin_clientId]
  split
  · rw [startMedia_clientId]
  · rfl

theorem joinRoom_ok_elim (st : RTCState) (args : JoinArgs) (genId : String)
    (res : JoinResponse) (st' : RTCState) (evs : List Event)
    (hok : joinRoom st args genId res = .ok (st', evs)) :
    ∃ rid, (args.roomId <|> st.roomId) = some rid
      ∧ (st', evs) = joinOk st args genId rid res := by
  unfold joinRoom at hok
  cases hrm : args.roomId <|> st.roomId with
  | none => rw [hrm] at hok; cases hok
  | some rid =>
    rw [hrm] at hok
    exact ⟨rid, rfl, (Except.ok.inj hok).symm⟩

/-- A join that was not granted publishing sends no offers: its event
trace is exactly the join request and the roster refresh. -/
theorem joinOk_no_offers (st : RTCState) (args : JoinArgs) (genId rid : String)
    (res : JoinResponse)
    (h : grantedPublisher res.participants (args.clientId.getD genId) = false) :
    (joinOk st args genId rid res).2
      = [Event.apiJoin rid (args.clientId.getD genId) args.publisher,
         Event.onRoster] := by
  simp only [joinOk, h]
  rw [offerLoopJoin_no_offers _ _ _ _ (by simp)]
  simp

/-- A join granted publishing offers to every other roster entry. -/
theorem joinOk_offers (st : RTCState) (args : JoinArgs) (genId rid : String)
    (res : JoinResponse)
    (h : grantedPublisher res.participants (args.clientId.getD genId) = true) :
    ∀ p ∈ res.participants, p.client_id ≠ args.clientId.getD genId →
    Event.signalSent (args.clientId.getD genId) p.client_id "offer"
      ∈ (joinOk st args genId rid res).2 := by
  intro p hp hne
  simp only [joinOk, h]
  simp only [if_true]
  apply List.mem_append_right
  apply offerLoopJoin_offers
  · rw [startMedia_clientId]
  · rw [startMedia_isPublisher]
  · exact hp
  · exact hne

/-- A presence announcement triggers an offer exactly when the session
publishes, the announced client differs from self, and the event is not
an unpublish. -/
theorem presence_offer_iff (s2 : RTCState) (m : SignalMessage) (c : String)
    (hty : m.type = "presence") (hdc : m.dataClientId = some c) :
    (Event.signalSent (selfStr s2) c "offer" ∈ (handleSignal s2 m).2.1)
      ↔ (s2.isPublisher = true ∧ s2.clientId ≠ some c ∧ m.event ≠ "unpublish") := by
  have hdisp : handleSignal s2 m
      = (if s2.isPublisher && (s2.clientId != some c) && (m.event != "unpublish") then
           ((makeOffer s2 c).1, [Event.onRoster] ++ (makeOffer s2 c).2, !m.relayOk)
         else (s2, [Event.onRoster], false)) := by
    simp [handleSignal, hty, hdc]
  rw [hdisp]
  split
  · next hcond =>
    simp only [Bool.and_eq_true, bne_iff_ne] at hcond
    constructor
    · intro _
      exact ⟨hcond.1.1, hcond.1.2, hcond.2⟩
    · intro _
      show _ ∈ [Event.onRoster] ++ (makeOffer s2 c).2
      rw [makeOffer_events_selfStr]
      simp
  · next hcond =>
    simp only [Bool.and_eq_true, bne_iff_ne] at hcond
    constructor
    · intro hmem
      simp at hmem
    · intro hyes
      exact absurd (by tauto) hcond

theorem publishOk_isPublisher (st : RTCState) (enable : Bool) (ro : Option String)
    (rid cid : String) (out : PublishResponse) :
    (publishOk st enable ro rid cid out).1.isPublisher = enable := by
  simp only [publishOk]
  split
  · rw [offerLoopPublish_isPublisher]
    split
    · rw [startMedia_isPublisher]
    · rfl
  · split
    · rw [startMedia_isPublisher]
    · rfl

theorem publishOk_localStream (st : RTCState) (ro : Option String)
    (rid cid : String) (out : PublishResponse) :
    (publishOk st true ro rid cid out).1.localStream = true := by
  simp only [publishOk, if_true]
  rw [offerLoopPublish_localStream]
  split
  · rw [startMedia_localStream]
  · next hc =>
    simp only [Bool.true_and, Bool.not_eq_true', Bool.not_eq_false] at hc
    exact hc

theorem publishOk_offers (st : RTCState) (ro : Option String)
    (rid cid : String) (out : PublishResponse) (hcid : st.clientId = some cid) :
    ∀ p ∈ out.participants, p.client_id ≠ cid →
    Event.signalSent cid p.client_id "offer" ∈ (publishOk st true ro rid cid out).2 := by
  intro p hp hne
  simp only [publishOk, if_true]
  apply List.mem_append_right
  apply offerLoopPublish_offers
  · split
    · rw [startMedia_clientId]
      exact hcid
    · exact hcid
  · exact hp
  · exact hne

/-! ### Remaining claim theorems -/

/-- C3 counterexample: joining with requested role "juror" against a roster
whose entry for the local client id carries no (falsy) role ends with the
session role "juror" — the locally requested value — and a second join
identical but for the requested role "viewer" ends with "viewer".  The
session role therefore does not equal the roster entry's role, and the
locally requested role does determine the granted value, falsifying the
claim. -/
theorem c3_counterexample :
    (joinRoom {} { roomId := some "r", clientId := some "c1", role := some "juror" } "g" { participants := [{ client_id := "c1", publisher := true }] }).map (fun x => x.1.role) = .ok "juror"
    ∧ (joinRoom {} { roomId := some "r", clientId := some "c1", role := some "viewer" } "g" { participants := [{ client_id := "c1", publisher := true }] }).map (fun x => x.1.role) = .ok "viewer"
    ∧ ({ client_id := "c1", publisher := true } : Participant).role = none := by
  refine ⟨rfl, rfl, rfl⟩

/-- C3 (amended): after a successful join, the session's publisher flag
equals the publisher flag of the first roster entry matching the local
client id (false when no entry matches) and does not depend on the
requested publishing intent; the session's role equals that entry's role
*when the entry carries a truthy role*, and otherwise falls back to the
locally requested role (default "observer"). -/
theorem c3_theorem (st : RTCState) (args : JoinArgs) (genId : String)
    (res : JoinResponse) (st' : RTCState) (evs : List Event)
    (hok : joinRoom st args genId res = .ok (st', evs)) :
    st'.isPublisher = grantedPublisher res.participants (args.clientId.getD genId)
    ∧ st'.role = grantedRole res.participants (args.clientId.getD genId)
        (args.role.getD "observer")
    ∧ (∀ b : Option Bool,
        (joinRoom st { args with publisher := b } genId res).map
            (fun x => x.1.isPublisher)
          = .ok st'.isPublisher) := by
  obtain ⟨rid, hrm, heq⟩ := joinRoom_ok_elim st args genId res st' evs hok
  have hst : st' = (joinOk st args genId rid res).1 := congrArg Prod.fst heq
  refine ⟨?_, ?_, ?_⟩
  · rw [hst, joinOk_isPublisher]
  · rw [hst, joinOk_role]
  · intro b
    unfold joinRoom
    have hrm' : (({ args with publisher := b } : JoinArgs).roomId <|> st.roomId)
        = some rid := by
      cases args
      simpa using hrm
    rw [hrm']
    simp only [Except.map]
    rw [joinOk_isPublisher, hst, joinOk_isPublisher]

/-- C3 witness: the amended theorem applied to a concrete join whose roster
grants publishing despite a `publisher: false` intent. -/
theorem c3_witness :
    (joinOk {} { roomId := some "r", clientId := some "c1", publisher := some false } "g" "r" { participants := [{ client_id := "c1", publisher := true }] }).1.isPublisher
      = grantedPublisher [{ client_id := "c1", publisher := true }] "c1" :=
  (c3_theorem {} { roomId := some "r", clientId := some "c1", publisher := some false } "g"
    { participants := [{ client_id := "c1", publisher := true }] } _ _ rfl).1

/-- C9 counterexample: in a room where "bbb" (lexicographically larger) is a
publisher and "aaa" is not, the joining "bbb" initiates the offer to "aaa"
even though "aaa" < "bbb", and "aaa" — the smaller id — sends no offer on
seeing "bbb"'s presence.  Initiation is decided by the publisher flag; no
lexicographic tie-break exists anywhere in the code, falsifying "exactly
one side initiates, decided by lexicographic comparison; the smaller client
id sends the offer". -/
theorem c9_counterexample :
    Event.signalSent "bbb" "aaa" "offer" ∈ joinEvents {} { roomId := some "r", clientId := some "bbb", publisher := some true } "g" { participants := [{ client_id := "aaa" }, { client_id := "bbb", publisher := true }] }
    ∧ "aaa" < "bbb"
    ∧ (handleSignal { clientId := some "aaa", isPublisher := false } { mid := 3, sender := "bbb", type := "presence", dataClientId := some "bbb", event := "join" }).2.1 = [Event.onRoster] := by
  refine ⟨by decide, String.lt_iff_toList_lt.mpr (by decide), by decide⟩

/-- C9 (amended): offer initiation is decided by the granted publisher
flag, not by comparing client identifiers: a joining session sends an offer
to every other roster participant iff it was granted publishing (no offers
at all otherwise), and a presence announcement triggers an offer iff the
session publishes, the announced id differs from self, and the event is not
an unpublish.  When both sides publish, both initiate. -/
theorem c9_theorem (st : RTCState) (args : JoinArgs) (genId : String)
    (res : JoinResponse) (st' : RTCState) (evs : List Event)
    (hok : joinRoom st args genId res = .ok (st', evs)) :
    (st'.isPublisher = false →
        ∀ src dst : String, Event.signalSent src dst "offer" ∉ evs)
    ∧ (st'.isPublisher = true → ∀ p ∈ res.participants,
        p.client_id ≠ args.clientId.getD genId →
        Event.signalSent (args.clientId.getD genId) p.client_id "offer" ∈ evs)
    ∧ (∀ (s2 : RTCState) (m : SignalMessage) (c : String),
        m.type = "presence" → m.dataClientId = some c →
        ((Event.signalSent (selfStr s2) c "offer" ∈ (handleSignal s2 m).2.1)
          ↔ (s2.isPublisher = true ∧ s2.clientId ≠ some c
              ∧ m.event ≠ "unpublish"))) := by
  obtain ⟨rid, hrm, heq⟩ := joinRoom_ok_elim st args genId res st' evs hok
  have hst : st' = (joinOk st args genId rid res).1 := congrArg Prod.fst heq
  have hevs : evs = (joinOk st args genId rid res).2 := congrArg Prod.snd heq
  refine ⟨?_, ?_, fun s2 m c hty hdc => presence_offer_iff s2 m c hty hdc⟩
  · intro hpub src dst
    rw [hst, joinOk_isPublisher] at hpub
    rw [hevs, joinOk_no_offers st args genId rid res hpub]
    intro hmem
    simp at hmem
  · intro hpub p hp hne
    rw [hst, joinOk_isPublisher] at hpub
    rw [hevs]
    exact joinOk_offers st args genId rid res hpub p hp hne

/-- C9 witness: the amended theorem applied to the join of publisher "bbb"
against a roster holding "aaa". -/
theorem c9_witness :
    Event.signalSent "bbb" "aaa" "offer" ∈ (joinOk {} { roomId := some "r", clientId := some "bbb", publisher := some true } "g" "r" { participants := [{ client_id := "aaa" }, { client_id := "bbb", publisher := true }] }).2 :=
  (c9_theorem {} { roomId := some "r", clientId := some "bbb", publisher := some true } "g"
    { participants := [{ client_id := "aaa" }, { client_id := "bbb", publisher := true }] }
    _ _ rfl).2.1 (by decide) { client_id := "aaa" } (by decide) (by decide)

/-- C10: `publish(enable)` sets the session's publisher flag to exactly the
requested value, whatever the server's response contains (the flag is the
same for every response); when enabling, local media is held afterwards
(acquired if absent), and an offer is sent to every participant of the
returned roster other than the session itself. -/
theorem c10_theorem (st : RTCState) (enable : Bool) (ro : Option String)
    (out : PublishResponse) (st' : RTCState) (evs : List Event) (rid cid : String)
    (h1 : st.roomId = some rid) (h2 : st.clientId = some cid)
    (hok : publish st enable ro out = .ok (st', evs)) :
    st'.isPublisher = enable
    ∧ (∀ out2 : PublishResponse,
        (publish st enable ro out2).map (fun x => x.1.isPublisher) = .ok enable)
    ∧ (enable = true → st'.localStream = true)
    ∧ (enable = true → ∀ p ∈ out.participants, p.client_id ≠ cid →
        Event.signalSent cid p.client_id "offer" ∈ evs) := by
  unfold publish at hok
  rw [h1, h2] at hok
  have heq := Except.ok.inj hok
  have hst : st' = (publishOk st enable ro rid cid out).1 := (congrArg Prod.fst heq).symm
  have hevs : evs = (publishOk st enable ro rid cid out).2 := (congrArg Prod.snd heq).symm
  refine ⟨?_, ?_, ?_, ?_⟩
  · rw [hst, publishOk_isPublisher]
  · intro out2
    unfold publish
    rw [h1, h2]
    simp [Except.map, publishOk_isPublisher]
  · intro he
    subst he
    rw [hst]
    exact publishOk_localStream st ro rid cid out
  · intro he p hp hne
    subst he
    rw [hevs]
    exact publishOk_offers st ro rid cid out h2 p hp hne

/-- C10 witness: the theorem applied to a concrete enable-publish on a
joined session whose response roster holds self and one other peer. -/
theorem c10_witness :
    (publishOk { roomId := some "r", clientId := some "me" } true none "r" "me" { participants := [{ client_id := "me" }, { client_id := "p2" }] }).1.isPublisher = true
    ∧ Event.signalSent "me" "p2" "offer" ∈ (publishOk { roomId := some "r", clientId := some "me" } true none "r" "me" { participants := [{ client_id := "me" }, { client_id := "p2" }] }).2 :=
  ⟨(c10_theorem { roomId := some "r", clientId := some "me" } true none
      { participants := [{ client_id := "me" }, { client_id := "p2" }] } _ _ "r" "me"
      rfl rfl rfl).1,
   (c10_theorem { roomId := some "r", clientId := some "me" } true none
      { participants := [{ client_id := "me" }, { client_id := "p2" }] } _ _ "r" "me"
      rfl rfl rfl).2.2.2 rfl { client_id := "p2" } (by decide) (by decide)⟩

end WeAll
